import Mathlib

/-!
Shallow embedding of the ChronoPulse session lifecycle, local persistence and
statistics aggregation code.

Timestamps are modelled as integers (epoch milliseconds); the ISO-8601 strings
of the source compare chronologically exactly like these integers.  Session ids
and user ids are modelled as naturals, since the source only ever compares them
for equality.  Browser state (the React `sessions` array, the localStorage
cache) is modelled as explicit `List Session` values threaded through the
operations.
-/

/-- A session record, after `types.ts` (`src/unnamed/part_002`): fields `id`,
`user_id` (optional owner), `category`, `start_time`, `end_time` (`none` while
the session is open), `is_active`, and the local-only `synced` flag. -/
structure Session where
  id : Nat
  user_id : Option Nat := none
  category : String
  start_time : Int
  end_time : Option Int
  is_active : Bool
  synced : Bool := false
deriving DecidableEq

/-- `createSession` from `src/unnamed/part_003` (the storage service): a fresh
id, `start_time = now`, `end_time = null`, `is_active = true`,
`synced = false`. -/
def createSession (newId : Nat) (category : String) (userId : Option Nat)
    (now : Int) : Session :=
  { id := newId, user_id := userId, category := category,
    start_time := now, end_time := none, is_active := true, synced := false }

/-- Local-cache effect of `saveSession` from `src/unnamed/part_003` with no
remote backend configured: the session is prepended to the cached list after
removing any cached entry with the same `id`
(`[sessionToSave, ...currentSessions.filter(s => s.id !== session.id)]`;
with no backend `sessionToSave` has exactly the fields of the argument). -/
def saveSession (cache : List Session) (s : Session) : List Session :=
  s :: cache.filter (fun t => t.id ≠ s.id)

/-- `loadSessions` from `src/unnamed/part_003` in local-only mode: the remote
branch is skipped and the parsed local cache is returned unchanged. -/
def loadSessions (cache : List Session) : List Session := cache

/-- The in-place update `handleStartSession` applies to the previously active
session (`src/App.tsx`): the session's own fields spread with
`end_time = now`, `is_active = false`. -/
def stopUpdate (now : Int) (s : Session) : Session :=
  { s with end_time := some now, is_active := false }

/-- `handleStartSession` (`src/App.tsx`, lines 395-443).  When the selected
date is strictly in the past the handler only opens the edit modal with a
draft and leaves the collection untouched.  Otherwise, if `find?` locates an
active session it is stopped in place via `stopUpdate`, and the freshly
created session is prepended.  The source reads the wall clock twice: once for
`now` (used to stop the previous session) and once inside `createSession`
(the new session's `start_time`), modelled as the two parameters `now` and
`createNow`. -/
def handleStartSession (sessions : List Session) (isPastDate : Bool)
    (now : Int) (newId : Nat) (category : String) (userId : Option Nat)
    (createNow : Int) : List Session :=
  if isPastDate then sessions
  else
    createSession newId category userId createNow ::
      match sessions.find? (fun s => s.is_active) with
      | some a => sessions.map (fun s => if s.id = a.id then stopUpdate now s else s)
      | none => sessions

/-- `handleStopSession` (`src/App.tsx`, lines 445-461): look the session up by
id; if absent, return without touching anything; otherwise clone it with
`end_time = now`, `is_active = false` and write the clone over every entry
carrying that id.  The source does not check `is_active` before overwriting. -/
def handleStopSession (sessions : List Session) (sessionId : Nat)
    (now : Int) : List Session :=
  match sessions.find? (fun s => s.id = sessionId) with
  | none => sessions
  | some found =>
    sessions.map (fun s =>
      if s.id = sessionId
      then { found with end_time := some now, is_active := false }
      else s)

/-- `handleUpdateSession` (`src/App.tsx`): replace the entry in place when the
id already exists in the collection, otherwise prepend the session. -/
def handleUpdateSession (sessions : List Session) (updated : Session) : List Session :=
  if sessions.any (fun s => s.id = updated.id) then
    sessions.map (fun s => if s.id = updated.id then updated else s)
  else
    updated :: sessions

/-- `handleSave` of `EditSessionModal` (bundled in `src/components/Auth.tsx`,
lines 312-348).  An empty end field keeps the session open
(`end_time = null`, `is_active = true`); a provided end closes it
(`is_active = false`).  The edit is rejected — the function alerts and
returns without calling `onSave` — exactly when a provided end precedes the
new start; `none` here models that rejected path. -/
def handleSave (s : Session) (newStart : Int) (newEnd : Option Int) : Option Session :=
  match newEnd with
  | some e =>
    if e < newStart then none
    else some { s with start_time := newStart, end_time := some e, is_active := false }
  | none => some { s with start_time := newStart, end_time := none, is_active := true }

/-- The Edit transition as wired in `src/App.tsx`: a rejected edit never calls
`onSave`, so the collection is untouched; an accepted edit flows through
`handleUpdateSession`. -/
def editSession (sessions : List Session) (s : Session) (newStart : Int)
    (newEnd : Option Int) : List Session :=
  match handleSave s newStart newEnd with
  | none => sessions
  | some u => handleUpdateSession sessions u

/-- JavaScript `Math.round(a / b)` for integer `a` and positive integer `b`:
half-up rounding, i.e. the floor of `a / b + 1/2 = (2a + b) / (2b)`. -/
def jsRound (a b : Int) : Int := Int.fdiv (2 * a + b) (2 * b)

/-- The effective end used throughout `StatisticsModal`
(`src/unnamed/part_004`): `end_time` when present, else the reference instant
`now` (an active session counts until the present). -/
def effectiveEnd (now : Int) (s : Session) : Int :=
  s.end_time.getD now

/-- The window filter of `StatisticsModal` (`src/unnamed/part_004`, lines
48-86): `isWithinInterval(new Date(s.start_time), { start, end })`, i.e. a
session is kept exactly when its start time lies inside the window (both ends
inclusive); the session's end plays no role in the filter. -/
def filterSessions (sessions : List Session) (wStart wEnd : Int) : List Session :=
  sessions.filter (fun s => wStart ≤ s.start_time ∧ s.start_time ≤ wEnd)

/-- One session's contribution to the aggregate pie (`src/unnamed/part_004`,
lines 89-105): `Math.round((end - start) / 60000)`, with an active session
counted until `now`.  No clamping of negative differences. -/
def sessionMinutes (now : Int) (s : Session) : Int :=
  jsRound (effectiveEnd now s - s.start_time) 60000

/-- The per-category pie total (the `catMap[s.category]` accumulation of
`src/unnamed/part_004`), over the sessions attributed to category `c`. -/
def catTotal (sessions : List Session) (now : Int) (c : String) : Int :=
  (sessions.filter (fun s => s.category = c)).foldl
    (fun acc s => acc + sessionMinutes now s) 0

/-- One session's contribution to one bar-chart bucket `[bStart, bEnd]`
(`src/unnamed/part_004`, lines 111-149): clamp the session interval to the
bucket, drop non-positive overlaps, round the overlap to whole minutes. -/
def overlapMinutes (now : Int) (s : Session) (bStart bEnd : Int) : Int :=
  let oS := max s.start_time bStart
  let oE := min (effectiveEnd now s) bEnd
  if oS < oE then jsRound (oE - oS) 60000 else 0

/-- One user-interface operation on the session collection, with the clock
readings the corresponding handler takes. -/
inductive SessionOp where
  | start (isPastDate : Bool) (now : Int) (newId : Nat) (category : String)
      (userId : Option Nat) (createNow : Int)
  | stop (sessionId : Nat) (now : Int)

/-- Dispatch one operation to its handler. -/
def applyOp (sessions : List Session) : SessionOp → List Session
  | .start p now newId c u cn => handleStartSession sessions p now newId c u cn
  | .stop sid now => handleStopSession sessions sid now

/-- Apply a sequence of Start/Stop operations in order. -/
def applyOps (sessions : List Session) (ops : List SessionOp) : List Session :=
  ops.foldl applyOp sessions

/-- Number of sessions in the collection with `is_active = true`. -/
def activeCount (sessions : List Session) : Nat :=
  sessions.countP (fun s => s.is_active)

/-! ## Helper lemmas -/

/-- A list containing two distinct elements has length at least two. -/
theorem two_mem_le_length {α : Type} {xs : List α} {a b : α}
    (ha : a ∈ xs) (hb : b ∈ xs) (hab : a ≠ b) : 2 ≤ xs.length := by
  cases xs with
  | nil => simp at ha
  | cons x t =>
    cases t with
    | nil =>
      simp only [List.mem_singleton] at ha hb
      exact absurd (ha.trans hb.symm) hab
    | cons y u =>
      simp only [List.length_cons]
      omega

/-- Stopping a session never increases the number of active sessions. -/
theorem activeCount_stop_le (sessions : List Session) (sid : Nat) (now : Int) :
    activeCount (handleStopSession sessions sid now) ≤ activeCount sessions := by
  unfold handleStopSession activeCount
  cases hf : sessions.find? (fun s => s.id = sid) with
  | none => exact le_refl _
  | some found =>
    simp only [List.countP_map]
    apply List.countP_mono_left
    intro s _ hps
    simp only [Function.comp] at hps
    by_cases hid : s.id = sid
    · simp [hid] at hps
    · simpa [hid] using hps

/-- Starting a session preserves the at-most-one-active invariant. -/
theorem activeCount_start_le (sessions : List Session) (p : Bool) (now : Int)
    (newId : Nat) (c : String) (u : Option Nat) (cn : Int)
    (h : activeCount sessions ≤ 1) :
    activeCount (handleStartSession sessions p now newId c u cn) ≤ 1 := by
  cases p with
  | true => simpa [handleStartSession] using h
  | false =>
    simp only [handleStartSession, Bool.false_eq_true, if_false]
    cases hf : sessions.find? (fun s => s.is_active) with
    | none =>
      have hzero : activeCount sessions = 0 := by
        rw [activeCount, List.countP_eq_zero]
        intro a ha
        simpa using List.find?_eq_none.mp hf a ha
      rw [activeCount] at hzero ⊢
      simp [List.countP_cons, hzero, createSession]
    | some a =>
      have hmem := List.mem_of_find?_eq_some hf
      have hact : a.is_active = true := by simpa using List.find?_some hf
      have hzero :
          (sessions.map fun s => if s.id = a.id then stopUpdate now s else s).countP
            (fun s => s.is_active) = 0 := by
        rw [List.countP_map, List.countP_eq_zero]
        intro s hs
        simp only [Function.comp]
        by_cases hid : s.id = a.id
        · simp [hid, stopUpdate]
        · rw [if_neg hid]
          intro hsact
          have hsact' : s.is_active = true := by simpa using hsact
          have hne : s ≠ a := fun he => hid (by rw [he])
          have hsf : s ∈ sessions.filter (fun t => t.is_active) :=
            List.mem_filter.mpr ⟨hs, by simpa using hsact'⟩
          have haf : a ∈ sessions.filter (fun t => t.is_active) :=
            List.mem_filter.mpr ⟨hmem, by simpa using hact⟩
          have h2 : 2 ≤ activeCount sessions := by
            rw [activeCount, List.countP_eq_length_filter]
            exact two_mem_le_length hsf haf hne
          omega
      rw [activeCount]
      simp [List.countP_cons, hzero, createSession]

/-! ## Claim theorems -/

/-- Claim C1: for every sequence of Start/Stop operations applied to one
owner's session collection, starting from a collection with at most one active
session, after each operation at most one session has `is_active = true`.
(Every point of a run is `applyOps` of some prefix, so this preservation
statement covers each intermediate state.) -/
theorem atMostOneActive_preserved (init : List Session) (ops : List SessionOp)
    (hinit : activeCount init ≤ 1) :
    activeCount (applyOps init ops) ≤ 1 := by
  induction ops generalizing init with
  | nil => exact hinit
  | cons op rest ih =>
    rw [applyOps, List.foldl_cons]
    apply ih
    cases op with
    | start p now newId c u cn => exact activeCount_start_le _ _ _ _ _ _ _ hinit
    | stop sid now => exact le_trans (activeCount_stop_le _ _ _) hinit

/-- Witness for claim C1: a concrete run of two starts and a stop from the
empty collection keeps at most one session active. -/
theorem atMostOneActive_preserved_witness :
    activeCount (applyOps []
      [SessionOp.start false 0 1 "Work" none 0,
       SessionOp.start false 50 2 "Rest" none 51,
       SessionOp.stop 2 100]) ≤ 1 :=
  atMostOneActive_preserved [] _ (by decide)

/-- Claim C2: when `Start(category)` is invoked while a session is active, the
previously active session ends up stopped with `end_time = now` (the stop
clock reading), the new session sits at the head of the collection with
`start_time` taken at the later `createSession` clock reading, and so the
stopped session's `end_time` is at most the new session's `start_time`
whenever the wall clock does not run backwards between the two reads. -/
theorem start_stops_previous (sessions : List Session) (a : Session)
    (now createNow : Int) (newId : Nat) (cat : String) (uid : Option Nat)
    (hfind : sessions.find? (fun s => s.is_active) = some a)
    (hclock : now ≤ createNow) :
    (handleStartSession sessions false now newId cat uid createNow).head? =
        some (createSession newId cat uid createNow)
    ∧ stopUpdate now a ∈ handleStartSession sessions false now newId cat uid createNow
    ∧ a.is_active = true
    ∧ (stopUpdate now a).id = a.id
    ∧ (stopUpdate now a).end_time = some now
    ∧ (stopUpdate now a).is_active = false
    ∧ now ≤ (createSession newId cat uid createNow).start_time := by
  have hmem := List.mem_of_find?_eq_some hfind
  have hact : a.is_active = true := by simpa using List.find?_some hfind
  have hunfold : handleStartSession sessions false now newId cat uid createNow =
      createSession newId cat uid createNow ::
        sessions.map (fun s => if s.id = a.id then stopUpdate now s else s) := by
    simp [handleStartSession, hfind]
  refine ⟨?_, ?_, hact, rfl, rfl, rfl, ?_⟩
  · rw [hunfold]
    rfl
  · rw [hunfold]
    exact List.mem_cons_of_mem _ (List.mem_map.mpr ⟨a, hmem, by simp⟩)
  · simpa [createSession] using hclock

/-- Previously active session used by the witness for claim C2. -/
def c2prev : Session :=
  { id := 1, category := "Work", start_time := 0, end_time := none, is_active := true }

/-- Witness for claim C2 at a concrete collection holding one active session:
starting a new session at clock reads 10 (stop) and 12 (create). -/
theorem start_stops_previous_witness :
    (handleStartSession [c2prev] false 10 2 "Rest" none 12).head? =
        some (createSession 2 "Rest" none 12)
    ∧ stopUpdate 10 c2prev ∈ handleStartSession [c2prev] false 10 2 "Rest" none 12
    ∧ c2prev.is_active = true
    ∧ (stopUpdate 10 c2prev).id = c2prev.id
    ∧ (stopUpdate 10 c2prev).end_time = some 10
    ∧ (stopUpdate 10 c2prev).is_active = false
    ∧ (10 : Int) ≤ (createSession 2 "Rest" none 12).start_time :=
  start_stops_previous [c2prev] c2prev 10 12 2 "Rest" none (by decide) (by decide)

/-- Session used by the claim C3 counterexample: starts 100 seconds before the
window `[0, 1000000]` and ends inside it. -/
def c3session : Session :=
  { id := 1, category := "Work", start_time := -100000, end_time := some 50000,
    is_active := false }

/-- Claim C3 counterexample: `c3session`'s interval
`[start_time, effectiveEnd] = [-100000, 50000]` intersects the window
`[0, 1000000]` (its end lies inside the window), yet the statistics filter
drops it, because the filter only tests whether the START time lies in the
window.  The session therefore contributes nothing to the window's totals,
contrary to the claim. -/
theorem c3_intersecting_session_excluded :
    c3session.start_time < 0
    ∧ 0 ≤ effectiveEnd 500000 c3session
    ∧ effectiveEnd 500000 c3session ≤ 1000000
    ∧ filterSessions [c3session] 0 1000000 = [] := by decide

/-- Claim C3 (amended): the aggregation window filter keeps exactly the
sessions whose `start_time` lies inside `[windowStart, windowEnd]`; the
session's end plays no role, so a session that starts before the window is
excluded even when its interval ends inside the window. -/
theorem filter_start_in_window_iff (sessions : List Session)
    (wStart wEnd : Int) (s : Session) :
    s ∈ filterSessions sessions wStart wEnd ↔
      s ∈ sessions ∧ wStart ≤ s.start_time ∧ s.start_time ≤ wEnd := by
  simp [filterSessions, List.mem_filter]

/-- The claim C4 session: for a day starting at epoch offset `d`, it spans
`[d + 22h, d + 26h]`, i.e. day-one 22:00 to day-two 02:00. -/
def c4session (d : Int) : Session :=
  { id := 1, category := "Work", start_time := d + 79200000,
    end_time := some (d + 93600000), is_active := false }

/-- Claim C4: bucketing the overnight session `[day1 22:00, day2 02:00]` by
day attributes exactly 120 minutes to day one's bucket
(`[startOfDay, endOfDay] = [d, d + 86399999]`) and exactly 120 minutes to day
two's bucket, the two contributions sum to the session's full 240-minute
duration, and the adjacent day buckets receive zero, so no part of the
session is counted twice. -/
theorem overnight_session_splits_evenly (d : Int) :
    overlapMinutes 0 (c4session d) d (d + 86399999) = 120
    ∧ overlapMinutes 0 (c4session d) (d + 86400000) (d + 172799999) = 120
    ∧ sessionMinutes 0 (c4session d) = 240
    ∧ 120 + 120 = sessionMinutes 0 (c4session d)
    ∧ overlapMinutes 0 (c4session d) (d - 86400000) (d - 1) = 0
    ∧ overlapMinutes 0 (c4session d) (d + 172800000) (d + 259199999) = 0 := by
  refine ⟨?_, ?_, ?_, ?_, ?_, ?_⟩ <;>
  · simp only [overlapMinutes, sessionMinutes, effectiveEnd, jsRound, c4session,
      Option.getD_some]
    rw [Int.fdiv_eq_ediv _ (by norm_num)]
    first
      | (split <;> omega)
      | omega

/-- Already-stopped session used by the claim C5 counterexample. -/
def c5session : Session :=
  { id := 1, category := "Work", start_time := 0, end_time := some 5000,
    is_active := false }

/-- Claim C5 counterexample: `Stop` applied to an already-stopped session is
not a no-op — the handler overwrites its `end_time` with the current instant
(5000 becomes 10000), changing the collection. -/
theorem c5_stop_stopped_not_noop :
    c5session.is_active = false
    ∧ handleStopSession [c5session] 1 10000 ≠ [c5session]
    ∧ (handleStopSession [c5session] 1 10000).map Session.end_time =
        [some 10000] := by decide

/-- Claim C5 (amended): `Stop(sessionId)` applied to an id absent from the
collection leaves it completely unchanged; applied to any PRESENT session —
active or already stopped — it sets that session's `end_time` to `now` and
`is_active` to `false` (overwriting a previous `end_time`), while every
session with a different id is left unchanged. -/
theorem stop_absent_noop_present_overwrites (sessions : List Session)
    (sid : Nat) (now : Int) :
    (sessions.find? (fun s => s.id = sid) = none →
        handleStopSession sessions sid now = sessions)
    ∧ ∀ t ∈ handleStopSession sessions sid now,
        (t.id = sid → t.end_time = some now ∧ t.is_active = false)
        ∧ (t.id ≠ sid → t ∈ sessions) := by
  constructor
  · intro h
    simp [handleStopSession, h]
  · intro t ht
    rw [handleStopSession] at ht
    cases hf : sessions.find? (fun s => s.id = sid) with
    | none =>
      simp only [hf] at ht
      refine ⟨fun hid => ?_, fun _ => ht⟩
      exfalso
      have hn := List.find?_eq_none.mp hf t ht
      simp only [decide_eq_true_eq] at hn
      exact hn hid
    | some found =>
      simp only [hf] at ht
      have hfid : found.id = sid := by simpa using List.find?_some hf
      obtain ⟨x, hx, hfx⟩ := List.mem_map.mp ht
      by_cases hxid : x.id = sid
      · rw [if_pos hxid] at hfx
        refine ⟨fun _ => ?_, fun hid => absurd ?_ hid⟩
        · rw [← hfx]
          exact ⟨rfl, rfl⟩
        · rw [← hfx]
          exact hfid
      · rw [if_neg hxid] at hfx
        subst hfx
        exact ⟨fun hid => absurd hid hxid, fun _ => hx⟩

/-- Active session used by the claim C5 witness. -/
def c5active : Session :=
  { id := 1, category := "Work", start_time := 0, end_time := none,
    is_active := true }

/-- The session `c5active` after the handler stops it at instant 7. -/
def c5stopped : Session :=
  { id := 1, category := "Work", start_time := 0, end_time := some 7,
    is_active := false }

/-- Witness for claim C5 (amended): stopping an absent id 99 leaves the
collection unchanged, and the entry produced by stopping id 1 at instant 7
carries `end_time = 7` and `is_active = false`. -/
theorem stop_absent_noop_present_overwrites_witness :
    handleStopSession [c5active] 99 7 = [c5active]
    ∧ c5stopped.end_time = some 7 ∧ c5stopped.is_active = false :=
  ⟨(stop_absent_noop_present_overwrites [c5active] 99 7).1 (by decide),
   ((stop_absent_noop_present_overwrites [c5active] 1 7).2 c5stopped
      (by decide)).1 (by decide)⟩

/-- Corrupted session used by the claim C6 counterexample: `start_time` two
minutes after its `end_time`. -/
def c6session : Session :=
  { id := 1, category := "Work", start_time := 120000, end_time := some 0,
    is_active := false }

/-- Claim C6 counterexample: the aggregation adds the corrupted session's
negative rounded duration (-2 minutes) to its category total instead of
treating it as zero-duration. -/
theorem c6_negative_minutes_added :
    sessionMinutes 999 c6session = -2
    ∧ catTotal [c6session] 999 "Work" = -2
    ∧ catTotal [c6session] 999 "Work" < 0 := by decide

/-- Claim C6 (amended): the aggregation computation is a total function (it
cannot raise), but it does not clamp corrupted sessions to zero: a session
whose `end_time` precedes `start_time` by more than 30000 ms contributes a
strictly negative number of minutes, and that negative amount is exactly what
is added to its category's total. -/
theorem corrupted_session_negative_contribution (now : Int) (s : Session)
    (e : Int) (hend : s.end_time = some e) (hbad : e + 30000 < s.start_time) :
    sessionMinutes now s < 0
    ∧ catTotal [s] now s.category = sessionMinutes now s := by
  constructor
  · simp only [sessionMinutes, effectiveEnd, hend, Option.getD_some, jsRound]
    rw [Int.fdiv_eq_ediv _ (by norm_num)]
    omega
  · simp [catTotal]

/-- Witness for claim C6 (amended) at the corrupted session `c6session`. -/
theorem corrupted_session_negative_contribution_witness :
    sessionMinutes 999 c6session < 0
    ∧ catTotal [c6session] 999 c6session.category = sessionMinutes 999 c6session :=
  corrupted_session_negative_contribution 999 c6session 0 (by decide) (by decide)

/-- Claim C7: the Edit transition accepts exactly when the new end is absent
or at least the new start; a provided end that precedes the new start is
rejected before any mutation, leaving the session collection unchanged. -/
theorem edit_validation_accepts_iff (sessions : List Session) (s : Session)
    (newStart : Int) (newEnd : Option Int) :
    ((handleSave s newStart newEnd).isSome ↔
      newEnd = none ∨ ∃ e, newEnd = some e ∧ newStart ≤ e)
    ∧ (handleSave s newStart newEnd = none →
        editSession sessions s newStart newEnd = sessions) := by
  constructor
  · cases newEnd with
    | none => simp [handleSave]
    | some e =>
      by_cases h : e < newStart
      · simp only [handleSave, if_pos h]
        simp
        omega
      · simp only [handleSave, if_neg h]
        simp
        omega
  · intro h
    simp [editSession, h]

/-- Session used by the claim C7 witness. -/
def c7session : Session :=
  { id := 1, category := "Work", start_time := 0, end_time := some 10,
    is_active := false }

/-- Witness for claim C7: an edit setting end 50 before start 100 is rejected
and the collection is returned unchanged. -/
theorem edit_validation_accepts_iff_witness :
    editSession [c7session] c7session 100 (some 50) = [c7session] :=
  (edit_validation_accepts_iff [c7session] c7session 100 (some 50)).2 (by decide)

/-- Claim C8: with no remote backend configured, `save(s)` followed by
`loadAll()` returns a collection that contains `s` itself (equal by id with
every field preserved), and any entry of the result carrying `s.id` is exactly
`s` — the save replaced whatever stale copy the cache held. -/
theorem save_then_load_preserves_session (cache : List Session) (s : Session) :
    s ∈ loadSessions (saveSession cache s)
    ∧ ∀ t ∈ loadSessions (saveSession cache s), t.id = s.id → t = s := by
  constructor
  · simp [loadSessions, saveSession]
  · intro t ht hid
    simp only [loadSessions, saveSession, List.mem_cons, List.mem_filter] at ht
    rcases ht with h | ⟨_, hne⟩
    · exact h
    · simp only [decide_eq_true_eq] at hne
      exact absurd hid hne

/-- Prior cache contents used by the claim C8 witness: a stale copy of id 2. -/
def c8cache : List Session :=
  [{ id := 2, category := "Rest", start_time := 0, end_time := some 1,
     is_active := false }]

/-- Session saved by the claim C8 witness (same id 2, different fields). -/
def c8session : Session :=
  { id := 2, category := "Work", start_time := 5, end_time := none,
    is_active := true }

/-- Witness for claim C8: after saving `c8session` over a cache holding a
stale entry with the same id, the loaded collection contains `c8session` and
its id-2 entry is exactly `c8session`. -/
theorem save_then_load_preserves_session_witness :
    c8session ∈ loadSessions (saveSession c8cache c8session)
    ∧ c8session = c8session :=
  ⟨(save_then_load_preserves_session c8cache c8session).1,
   (save_then_load_preserves_session c8cache c8session).2 c8session
     (by decide) (by decide)⟩

/-- Claim C9: calling `save(s)` twice with identical content leaves the local
cache with exactly one entry whose id equals `s.id`. -/
theorem save_twice_single_entry (cache : List Session) (s : Session) :
    (saveSession (saveSession cache s) s).countP (fun t => t.id = s.id) = 1 := by
  have h1 : ∀ l : List Session,
      (l.filter (fun t => t.id ≠ s.id)).countP (fun t => t.id = s.id) = 0 := by
    intro l
    rw [List.countP_eq_zero]
    intro a ha
    have h2 := (List.mem_filter.mp ha).2
    simp only [decide_eq_true_eq] at h2 ⊢
    exact h2
  simp only [saveSession, List.countP_cons, h1]
  simp

/-- Claim C10: `save(s)` places `s` at the front of the stored list and keeps
every cached session with a different id present with all of its fields
unchanged. -/
theorem save_frame_other_ids_unchanged (cache : List Session) (s : Session) :
    (saveSession cache s).head? = some s
    ∧ ∀ t ∈ cache, t.id ≠ s.id → t ∈ saveSession cache s := by
  refine ⟨rfl, ?_⟩
  intro t ht hne
  exact List.mem_cons_of_mem _ (List.mem_filter.mpr ⟨ht, by simpa using hne⟩)

/-- Cached session with a different id, used by the claim C10 witness. -/
def c10other : Session :=
  { id := 3, category := "Rest", start_time := 1, end_time := some 2,
    is_active := false }

/-- Session saved by the claim C10 witness. -/
def c10saved : Session :=
  { id := 1, category := "Work", start_time := 5, end_time := none,
    is_active := true }

/-- Witness for claim C10: saving `c10saved` over a cache holding `c10other`
puts `c10saved` in front and keeps `c10other` present unchanged. -/
theorem save_frame_other_ids_unchanged_witness :
    (saveSession [c10other] c10saved).head? = some c10saved
    ∧ c10other ∈ saveSession [c10other] c10saved :=
  ⟨(save_frame_other_ids_unchanged [c10other] c10saved).1,
   (save_frame_other_ids_unchanged [c10other] c10saved).2 c10other
     (by decide) (by decide)⟩

/-- Witness for claim C3 (amended) at the concrete session and window of the
counterexample: the membership characterization evaluated concretely. -/
theorem filter_start_in_window_iff_witness :
    c3session ∈ filterSessions [c3session] 0 1000000 ↔
      c3session ∈ [c3session] ∧ 0 ≤ c3session.start_time
        ∧ c3session.start_time ≤ 1000000 :=
  filter_start_in_window_iff [c3session] 0 1000000 c3session

/-- Witness for claim C4 with day one starting at the epoch. -/
theorem overnight_session_splits_evenly_witness :
    overlapMinutes 0 (c4session 0) 0 86399999 = 120
    ∧ overlapMinutes 0 (c4session 0) 86400000 172799999 = 120
    ∧ sessionMinutes 0 (c4session 0) = 240
    ∧ 120 + 120 = sessionMinutes 0 (c4session 0)
    ∧ overlapMinutes 0 (c4session 0) (-86400000) (-1) = 0
    ∧ overlapMinutes 0 (c4session 0) 172800000 259199999 = 0 := by
  have h := overnight_session_splits_evenly 0
  simpa using h

/-- Session used by the claim C9 witness. -/
def c9session : Session :=
  { id := 4, category := "Work", start_time := 0, end_time := none,
    is_active := true }

/-- Witness for claim C9: saving `c9session` twice into the empty cache
leaves exactly one entry with its id. -/
theorem save_twice_single_entry_witness :
    (saveSession (saveSession [] c9session) c9session).countP
      (fun t => t.id = c9session.id) = 1 :=
  save_twice_single_entry [] c9session
